import Mathlib

/-!
Verification of the measurement and label-placement engines of the
Khasra Dimension Area Tool.

The unit-conversion and area code is embedded from
`src/components/Dashboard.tsx` (the geo-utils module: constants
`KARAM_TO_FEET`, `METERS_PER_FOOT`, `METERS_PER_KARAM`,
`SQ_METERS_PER_MARLA`, functions `formatKaramFeet`, `calculateKanalMarla`,
`calculateProjectedArea`); the label collision engine is embedded from
`src/components/Map.tsx` (`isOverlapping`, `getCollisionBox`,
`findFreePosition`, the candidate loop of `CollisionManagedMarkers`, and
the comparator passed to `allPending.sort`).

JavaScript numbers are modelled as exact rationals (`ℚ`); `Math.floor`
is `Int.floor` and `Math.round` is `fun q => ⌊q + 1/2⌋`, which is the
JS rounding rule (half towards plus infinity).  The proj4 UTM
projections and the Leaflet geographic-to-screen transform are external
libraries; they enter the embedding as opaque-parameter functions
`Point → Point`, exactly as the source treats them (applied pointwise,
never inspected).
-/

/-- Planar point, `(x, y)` in projected meters (or screen pixels). -/
abbrev Point : Type := ℚ × ℚ

/-! ## Unit constants (Dashboard.tsx lines 604-608) -/

/-- `const KARAM_TO_FEET = 5.5`. -/
def KARAM_TO_FEET : ℚ := 11 / 2

/-- `const METERS_PER_FOOT = 0.3048`. -/
def METERS_PER_FOOT : ℚ := 3048 / 10000

/-- `const METERS_PER_KARAM = KARAM_TO_FEET * METERS_PER_FOOT`. -/
def METERS_PER_KARAM : ℚ := KARAM_TO_FEET * METERS_PER_FOOT

/-- `const SQ_METERS_PER_MARLA = 9 * Math.pow(METERS_PER_KARAM, 2)`. -/
def SQ_METERS_PER_MARLA : ℚ := 9 * METERS_PER_KARAM ^ 2

/-! ## JavaScript numeric primitives -/

/-- JavaScript `Math.round`: round to nearest, half towards +infinity. -/
def jsRound (q : ℚ) : ℤ := ⌊q + 1 / 2⌋

/-- `Math.round(q * 10) / 10`, the one-decimal rounding used by
`formatKaramFeet`. -/
def round1 (q : ℚ) : ℚ := (jsRound (q * 10) : ℚ) / 10

/-- `Math.round(q * 100) / 100`, the two-decimal rounding used by
`calculateKanalMarla`. -/
def round2 (q : ℚ) : ℚ := (jsRound (q * 100) : ℚ) / 100

/-- Zero-padded two-digit rendering of a natural number below 100. -/
def pad2 (m : ℕ) : String := if m < 10 then "0" ++ toString m else toString m

/-- JavaScript `toFixed(1)` for the values reached in this code, which
are always nonnegative exact multiples of one tenth. -/
def toFixed1 (q : ℚ) : String :=
  let n : ℕ := (jsRound (q * 10)).toNat
  toString (n / 10) ++ "." ++ toString (n % 10)

/-- JavaScript `toFixed(2)` for the values reached in this code, which
are always nonnegative exact multiples of one hundredth. -/
def toFixed2 (q : ℚ) : String :=
  let n : ℕ := (jsRound (q * 100)).toNat
  toString (n / 100) ++ "." ++ pad2 (n % 100)

/-! ## formatKaramFeet (Dashboard.tsx lines 614-628) -/

/-- `formatKaramFeet(meters)`: length in meters rendered as Karam and
feet, embedded line by line from the source. -/
def formatKaramFeet (meters : ℚ) : String :=
  let karams : ℤ := ⌊meters / METERS_PER_KARAM + 1 / 1000⌋
  let remainingMeters : ℚ := meters - (karams : ℚ) * METERS_PER_KARAM
  let remainingFeet : ℚ := remainingMeters / METERS_PER_FOOT
  let roundedFeet : ℚ := round1 remainingFeet
  if karams > 0 then
    if roundedFeet ≥ 1 / 10 then
      toString karams ++ "k - " ++ toFixed1 roundedFeet ++ "ft"
    else
      toString karams ++ "k"
  else
    toFixed1 roundedFeet ++ "ft"

/-! ## calculateKanalMarla (Dashboard.tsx lines 635-661) -/

/-- Return record of `calculateKanalMarla` (interface `KhasraStats`). -/
structure KhasraStats where
  areaSqFt : ℚ
  totalMarlas : ℚ
  kanals : ℤ
  marlas : ℚ
  label : String
deriving DecidableEq, Repr

/-- `calculateKanalMarla(areaSqMeters)`: area in projected square
meters converted to Kanal and Marla, embedded line by line from the
source. -/
def calculateKanalMarla (areaSqMeters : ℚ) : KhasraStats :=
  let totalMarlas : ℚ := areaSqMeters / SQ_METERS_PER_MARLA
  let kanals : ℤ := ⌊totalMarlas / 20 + 1 / 10000⌋
  let remainingMarlas : ℚ := totalMarlas - (kanals : ℚ) * 20
  let roundedMarlas : ℚ := round2 remainingMarlas
  let areaSqFt : ℚ := areaSqMeters * (1 / METERS_PER_FOOT ^ 2)
  let label : String :=
    if kanals > 0 then
      if roundedMarlas ≥ 1 / 100 then
        toString kanals ++ " K - " ++ toFixed2 roundedMarlas ++ " M"
      else
        toString kanals ++ " Kanal"
    else
      toFixed2 roundedMarlas ++ " Marla"
  ⟨areaSqFt, totalMarlas, kanals, remainingMarlas, label⟩

/-! ## Projection selection and projected area (Dashboard.tsx 666-714) -/

/-- proj4 definition string `UTM42N`. -/
def UTM42N : String := "+proj=utm +zone=42 +datum=WGS84 +units=m +no_defs"

/-- proj4 definition string `UTM43N`. -/
def UTM43N : String := "+proj=utm +zone=43 +datum=WGS84 +units=m +no_defs"

/-- The frame-selection expression used by both `calculateDimensions`
and `calculateProjectedArea`:
`crs === 'UTM42N' ? UTM42N : UTM43N`. -/
def selectProjection (crs : String) : String :=
  if crs = "UTM42N" then UTM42N else UTM43N

/-- Cross product term of one consecutive vertex pair:
`(x1 * y2) - (x2 * y1)`. -/
def cross (p q : Point) : ℚ := p.1 * q.2 - q.1 * p.2

/-- The loop of `calculateProjectedArea`: sum of `cross` over the
consecutive pairs of the list (`for i in 0 .. length-2`), with no
wraparound term. -/
def shoelaceSum : List Point → ℚ
  | p :: q :: rest => cross p q + shoelaceSum (q :: rest)
  | _ => 0

/-- `calculateProjectedArea(feature, crs)`: the outer ring is projected
pointwise by the proj4 transform of the selected frame (here the
parameter `proj`), consecutive cross products are summed, and
`Math.abs(area) / 2` is returned. -/
def calculateProjectedArea (proj : Point → Point) (coords : List Point) : ℚ :=
  |shoelaceSum (coords.map proj)| / 2

/-! ## Specification-side area (for refinement comparison)

These definitions follow the specification text, not the source: the
spec asks that a duplicate closing vertex be dropped and that the ring
then be implicitly closed by wrapping the last vertex back to the
first. -/

/-- Specification side: drop the duplicate closing vertex if the ring
repeats its first vertex as its last. -/
def dropClosingDup (l : List Point) : List Point :=
  if 2 ≤ l.length ∧ l.getLast? = l.head? then l.dropLast else l

/-- Specification side: shoelace sum of a ring implicitly closed by
wrapping the last vertex back to the first. -/
def closedShoelace : List Point → ℚ
  | [] => 0
  | x :: xs => shoelaceSum ((x :: xs) ++ [x])

/-- Specification side `computeArea`: project, drop a duplicate closing
vertex, apply the closed shoelace formula, return the absolute value
halved. -/
def computeArea_spec (proj : Point → Point) (coords : List Point) : ℚ :=
  |closedShoelace (dropClosingDup (coords.map proj))| / 2

/-! ## Specification-side length label (for refinement comparison) -/

/-- Specification side `formatLengthLabel`, following the spec text:
`karamCount = floor(meters/meterPerKaram + eps)`;
`remainderFeet = round1((meters - karamCount*meterPerKaram)/0.3048)`;
the label is the feet-only form when `karamCount` is 0, the karam-only
form when the remainder rounds to 0.0, and the combined form when both
parts are nonzero. -/
def formatLengthLabel_spec (meters : ℚ) : String :=
  let karamCount : ℤ := ⌊meters / METERS_PER_KARAM + 1 / 1000⌋
  let remainderFeet : ℚ :=
    round1 ((meters - (karamCount : ℚ) * METERS_PER_KARAM) / METERS_PER_FOOT)
  if karamCount = 0 then
    toFixed1 remainderFeet ++ "ft"
  else if remainderFeet = 0 then
    toString karamCount ++ "k"
  else
    toString karamCount ++ "k - " ++ toFixed1 remainderFeet ++ "ft"

/-! ## Claims about calculateKanalMarla -/

/-- C3 counterexample: for the area whose `totalMarlas` is exactly
19.999, the epsilon inside `Math.floor(totalMarlas / 20 + 0.0001)`
pushes `kanals` to 1 although `floor(totalMarlas / 20) = 0`, and the
remainder becomes negative, leaving the claimed interval `[0, 20)`. -/
theorem kanalMarla_floor_counterexample :
    (calculateKanalMarla ((19999 / 1000) * SQ_METERS_PER_MARLA)).kanals = 1 ∧
    ⌊(calculateKanalMarla ((19999 / 1000) * SQ_METERS_PER_MARLA)).totalMarlas / 20⌋ = 0 ∧
    (calculateKanalMarla ((19999 / 1000) * SQ_METERS_PER_MARLA)).marlas < 0 := by
  refine ⟨?_, ?_, ?_⟩ <;>
    norm_num [calculateKanalMarla, SQ_METERS_PER_MARLA, METERS_PER_KARAM,
      KARAM_TO_FEET, METERS_PER_FOOT]

/-- C3 (amended): `calculateKanalMarla` computes
`kanals = floor(totalMarlas / 20 + 0.0001)` (epsilon included) and
`marlas = totalMarlas - 20 * kanals`, so the remainder lies in
`[-1/500, 20)` rather than `[0, 20)`; the boundary input whose
`totalMarlas` is exactly 20.00 does yield `kanals = 1`, `marlas = 0`. -/
theorem kanalMarla_epsilon_invariant :
    (∀ a : ℚ,
      (calculateKanalMarla a).totalMarlas = a / SQ_METERS_PER_MARLA ∧
      (calculateKanalMarla a).kanals =
        ⌊(calculateKanalMarla a).totalMarlas / 20 + 1 / 10000⌋ ∧
      (calculateKanalMarla a).marlas =
        (calculateKanalMarla a).totalMarlas - 20 * ((calculateKanalMarla a).kanals : ℚ) ∧
      -(1 / 500) ≤ (calculateKanalMarla a).marlas ∧
      (calculateKanalMarla a).marlas < 20) ∧
    (calculateKanalMarla (20 * SQ_METERS_PER_MARLA)).kanals = 1 ∧
    (calculateKanalMarla (20 * SQ_METERS_PER_MARLA)).marlas = 0 := by
  refine ⟨fun a => ⟨rfl, rfl, ?_, ?_, ?_⟩, ?_, ?_⟩
  · simp only [calculateKanalMarla]; ring
  · simp only [calculateKanalMarla]
    have h := Int.floor_le (a / SQ_METERS_PER_MARLA / 20 + 1 / 10000)
    linarith
  · simp only [calculateKanalMarla]
    have h := Int.lt_floor_add_one (a / SQ_METERS_PER_MARLA / 20 + 1 / 10000)
    linarith
  · norm_num [calculateKanalMarla, SQ_METERS_PER_MARLA, METERS_PER_KARAM,
      KARAM_TO_FEET, METERS_PER_FOOT]
  · norm_num [calculateKanalMarla, SQ_METERS_PER_MARLA, METERS_PER_KARAM,
      KARAM_TO_FEET, METERS_PER_FOOT]

/-- C6: the square ring with projected corners (0,0), (50,0), (50,50),
(0,50) has code area 2500 square meters, and `calculateKanalMarla 2500`
returns `totalMarlas` within 1/2000 of 98.8423, `kanals = 4`, `marlas`
within 1/100 of 18.84, and the label `"4 K - 18.84 M"`; the Marla
constant is exactly 25.29285264. -/
theorem worked_example_square_2500 :
    SQ_METERS_PER_MARLA = 2529285264 / 100000000 ∧
    calculateProjectedArea id
      [((0 : ℚ), (0 : ℚ)), (50, 0), (50, 50), (0, 50), (0, 0)] = 2500 ∧
    |(calculateKanalMarla 2500).totalMarlas - 988423 / 10000| < 1 / 2000 ∧
    (calculateKanalMarla 2500).kanals = 4 ∧
    |(calculateKanalMarla 2500).marlas - 1884 / 100| < 1 / 100 ∧
    (calculateKanalMarla 2500).label = "4 K - 18.84 M" := by
  have hnum : SQ_METERS_PER_MARLA = 2529285264 / 100000000 := by
    norm_num [SQ_METERS_PER_MARLA, METERS_PER_KARAM, KARAM_TO_FEET, METERS_PER_FOOT]
  have hk : ⌊(2500 : ℚ) / SQ_METERS_PER_MARLA / 20 + 1 / 10000⌋ = 4 := by
    rw [hnum]; norm_num
  refine ⟨hnum, ?_, ?_, ?_, ?_, ?_⟩
  · simp only [calculateProjectedArea, List.map, id_eq, shoelaceSum, cross]
    rw [abs_of_nonneg (by norm_num)]
    norm_num
  · simp only [calculateKanalMarla]
    rw [abs_sub_lt_iff, hnum]
    constructor <;> norm_num
  · simp only [calculateKanalMarla]
    exact hk
  · simp only [calculateKanalMarla]
    rw [abs_sub_lt_iff, hk, hnum]
    constructor <;> norm_num
  · simp only [calculateKanalMarla]
    rw [hk]
    have hr : round2 ((2500 : ℚ) / SQ_METERS_PER_MARLA - ((4 : ℤ) : ℚ) * 20)
        = 1884 / 100 := by
      rw [hnum]; norm_num [round2, jsRound]
    rw [hr]
    rw [if_pos (by norm_num), if_pos (by norm_num)]
    have ht : toFixed2 ((1884 : ℚ) / 100) = "18.84" := by
      have h1 : jsRound ((1884 : ℚ) / 100 * 100) = 1884 := by norm_num [jsRound]
      rw [toFixed2, h1]
      rfl
    rw [ht]
    rfl

/-- C9: `calculateKanalMarla` is monotonically non-decreasing in its
input, both in `totalMarlas` and in `kanals`. -/
theorem kanalMarla_monotone (a b : ℚ) (hab : a ≤ b) :
    (calculateKanalMarla a).totalMarlas ≤ (calculateKanalMarla b).totalMarlas ∧
    (calculateKanalMarla a).kanals ≤ (calculateKanalMarla b).kanals := by
  have hS : (0 : ℚ) < SQ_METERS_PER_MARLA := by
    norm_num [SQ_METERS_PER_MARLA, METERS_PER_KARAM, KARAM_TO_FEET, METERS_PER_FOOT]
  simp only [calculateKanalMarla]
  have h1 : a / SQ_METERS_PER_MARLA ≤ b / SQ_METERS_PER_MARLA := by gcongr
  exact ⟨h1, Int.floor_le_floor (by linarith)⟩

/-- C9 witness at the concrete inputs 1 and 2. -/
theorem kanalMarla_monotone_witness :
    (1 : ℚ) ≤ 2 ∧
    ((calculateKanalMarla 1).totalMarlas ≤ (calculateKanalMarla 2).totalMarlas ∧
     (calculateKanalMarla 1).kanals ≤ (calculateKanalMarla 2).kanals) :=
  ⟨by norm_num, kanalMarla_monotone 1 2 (by norm_num)⟩

/-! ## Shoelace lemmas -/

/-- Appending one more vertex after a final vertex `a` adds exactly the
cross term `cross a b`. -/
theorem shoelaceSum_append_pair : ∀ (l : List Point) (a b : Point),
    shoelaceSum (l ++ [a, b]) = shoelaceSum (l ++ [a]) + cross a b := by
  intro l
  induction l with
  | nil => intro a b; simp [shoelaceSum]
  | cons c l ih =>
    intro a b
    cases l with
    | nil => simp [shoelaceSum]
    | cons d l2 =>
      show cross c d + shoelaceSum ((d :: l2) ++ [a, b])
          = cross c d + shoelaceSum ((d :: l2) ++ [a]) + cross a b
      rw [ih]; ring

/-- Reversing the vertex list negates the consecutive-pair shoelace
sum. -/
theorem shoelaceSum_reverse : ∀ l : List Point,
    shoelaceSum l.reverse = -shoelaceSum l := by
  intro l
  induction l with
  | nil => simp [shoelaceSum]
  | cons a l ih =>
    cases l with
    | nil => simp [shoelaceSum]
    | cons b l2 =>
      have h2 : (b :: l2).reverse = l2.reverse ++ [b] := by simp
      have hrev : (a :: b :: l2).reverse = l2.reverse ++ [b, a] := by
        simp [List.append_assoc]
      rw [hrev, shoelaceSum_append_pair, ← h2, ih]
      have hc : cross b a = -cross a b := by unfold cross; ring
      have hs : shoelaceSum (a :: b :: l2) = cross a b + shoelaceSum (b :: l2) := rfl
      rw [hc, hs]
      ring

/-- C8: for every ring and every pointwise projection, the code area is
nonnegative, and reversing the vertex order (opposite winding) yields
the same area. -/
theorem projectedArea_nonneg_and_reverse (proj : Point → Point) (coords : List Point) :
    0 ≤ calculateProjectedArea proj coords ∧
    calculateProjectedArea proj coords.reverse = calculateProjectedArea proj coords := by
  constructor
  · exact div_nonneg (abs_nonneg _) (by norm_num)
  · unfold calculateProjectedArea
    rw [List.map_reverse, shoelaceSum_reverse, abs_neg]

/-- For a vertex list that explicitly repeats its first vertex as its
last, the consecutive-pair sum of the source equals the spec's closed
shoelace sum of the deduplicated ring. -/
theorem shoelace_closed_decomp (pl : List Point) (h : pl.head? = pl.getLast?) :
    |shoelaceSum pl| / 2 = |closedShoelace (dropClosingDup pl)| / 2 := by
  match pl with
  | [] => simp [dropClosingDup, closedShoelace, shoelaceSum]
  | [a] =>
    have : dropClosingDup [a] = [a] := by simp [dropClosingDup]
    rw [this]
    simp [closedShoelace, shoelaceSum, cross]
  | a :: b :: l2 =>
    have hne : (b :: l2) ≠ [] := by simp
    have hgl : (a :: b :: l2).getLast? = some ((b :: l2).getLast hne) := by
      rw [List.getLast?_eq_getLast (a :: b :: l2) (by simp), List.getLast_cons hne]
    have ha : (b :: l2).getLast hne = a := by
      rw [hgl] at h
      simpa using h.symm
    have hdecomp : b :: l2 = (b :: l2).dropLast ++ [a] := by
      conv_lhs => rw [← List.dropLast_append_getLast hne]
      rw [ha]
    have hpl : a :: b :: l2 = (a :: (b :: l2).dropLast) ++ [a] := by
      rw [List.cons_append, ← hdecomp]
    rw [hpl]
    have hdrop : dropClosingDup ((a :: (b :: l2).dropLast) ++ [a])
        = a :: (b :: l2).dropLast := by
      rw [dropClosingDup, if_pos, List.dropLast_concat]
      refine ⟨by simp, ?_⟩
      rw [List.getLast?_concat]
      simp
    rw [hdrop]
    rfl

/-- C1 counterexample: on the open triangle (1,1), (3,1), (2,4) the
code returns 4 while the spec's dedup-and-wrap shoelace area is 3, the
value the code returns only on the explicitly closed ring. -/
theorem calculateProjectedArea_open_ring_counterexample :
    calculateProjectedArea id [((1 : ℚ), (1 : ℚ)), (3, 1), (2, 4)] = 4 ∧
    computeArea_spec id [((1 : ℚ), (1 : ℚ)), (3, 1), (2, 4)] = 3 ∧
    calculateProjectedArea id [((1 : ℚ), (1 : ℚ)), (3, 1), (2, 4), (1, 1)] = 3 := by
  refine ⟨?_, ?_, ?_⟩
  · simp only [calculateProjectedArea, List.map, id_eq, shoelaceSum, cross]
    rw [abs_of_nonneg (by norm_num)]
    norm_num
  · have hdrop : dropClosingDup [((1 : ℚ), (1 : ℚ)), (3, 1), (2, 4)]
        = [((1 : ℚ), (1 : ℚ)), (3, 1), (2, 4)] := by
      rw [dropClosingDup, if_neg]
      intro hcontra
      have h24 := hcontra.2
      norm_num at h24
    simp only [computeArea_spec, List.map, id_eq]
    rw [hdrop]
    show |shoelaceSum [((1 : ℚ), (1 : ℚ)), (3, 1), (2, 4), (1, 1)]| / 2 = 3
    simp only [shoelaceSum, cross]
    rw [abs_of_nonneg (by norm_num)]
    norm_num
  · simp only [calculateProjectedArea, List.map, id_eq, shoelaceSum, cross]
    rw [abs_of_nonneg (by norm_num)]
    norm_num

/-- C1 (amended): the code's loop sums only consecutive projected
pairs, with no dedup and no wraparound term, so it agrees with the
spec's computeArea exactly when the input ring explicitly repeats its
first vertex as its last (as GeoJSON rings do). -/
theorem calculateProjectedArea_eq_spec_of_closed (proj : Point → Point)
    (coords : List Point) (h : coords.head? = coords.getLast?) :
    calculateProjectedArea proj coords = computeArea_spec proj coords := by
  unfold calculateProjectedArea computeArea_spec
  have hm : (coords.map proj).head? = (coords.map proj).getLast? := by
    rw [List.head?_map, List.getLast?_map, h]
  exact shoelace_closed_decomp _ hm

/-- C1 witness: the amended theorem applied to an explicitly closed
square ring under the identity projection. -/
theorem calculateProjectedArea_eq_spec_of_closed_witness :
    ([((0 : ℚ), (0 : ℚ)), (2, 0), (2, 2), (0, 2), (0, 0)] : List Point).head?
      = ([((0 : ℚ), (0 : ℚ)), (2, 0), (2, 2), (0, 2), (0, 0)] : List Point).getLast? ∧
    calculateProjectedArea id [((0 : ℚ), (0 : ℚ)), (2, 0), (2, 2), (0, 2), (0, 0)]
      = computeArea_spec id [((0 : ℚ), (0 : ℚ)), (2, 0), (2, 2), (0, 2), (0, 0)] :=
  ⟨rfl, calculateProjectedArea_eq_spec_of_closed id _ rfl⟩

/-! ## Claims about error handling -/

/-- C2 counterexample: the measurement code has no error path.  A frame
name that is not 'UTM42N' is silently projected with UTM43N rather
than rejected, and the degenerate open two-vertex ring (1,1), (3,1)
still produces the numeric area 1 rather than a GeometryError. -/
theorem no_error_counterexample :
    selectProjection "EPSG:32643" = UTM43N ∧
    calculateProjectedArea id [((1 : ℚ), (1 : ℚ)), (3, 1)] = 1 := by
  constructor
  · rw [selectProjection, if_neg (by decide)]
  · simp only [calculateProjectedArea, List.map, id_eq, shoelaceSum, cross]
    rw [abs_of_nonpos (by norm_num)]
    norm_num

/-- C2 (amended): no GeometryError or ConfigurationError exists in the
code.  Every frame name other than 'UTM42N' selects the UTM43N
projection, and the area computation is total: on any two-vertex ring
it returns the numeric value |cross| / 2 instead of failing. -/
theorem measurement_is_total (crs : String) (hcrs : crs ≠ "UTM42N") :
    selectProjection crs = UTM43N ∧
    ∀ (proj : Point → Point) (p q : Point),
      calculateProjectedArea proj [p, q] = |cross (proj p) (proj q)| / 2 := by
  constructor
  · rw [selectProjection, if_neg hcrs]
  · intro proj p q
    simp [calculateProjectedArea, shoelaceSum]

/-- C2 witness: the amended theorem applied to the unknown frame name
'EPSG:32643'. -/
theorem measurement_is_total_witness :
    "EPSG:32643" ≠ "UTM42N" ∧
    (selectProjection "EPSG:32643" = UTM43N ∧
     ∀ (proj : Point → Point) (p q : Point),
       calculateProjectedArea proj [p, q] = |cross (proj p) (proj q)| / 2) :=
  ⟨by decide, measurement_is_total "EPSG:32643" (by decide)⟩

/-! ## Claims about formatKaramFeet -/

/-- With a nonnegative input the epsilon floor is nonnegative. -/
theorem karams_nonneg (m : ℚ) (hm : 0 ≤ m) :
    0 ≤ ⌊m / METERS_PER_KARAM + 1 / 1000⌋ := by
  have hK : (0 : ℚ) < METERS_PER_KARAM := by
    norm_num [METERS_PER_KARAM, KARAM_TO_FEET, METERS_PER_FOOT]
  have h1 : (0 : ℚ) ≤ m / METERS_PER_KARAM := div_nonneg hm hK.le
  exact Int.le_floor.mpr (by push_cast; linarith)

/-- The rounded residual feet amount is never negative: the epsilon can
make the residual meters at most 0.0016764 negative, which still
rounds to zero tenths of a foot. -/
theorem roundedFeet_num_nonneg (m : ℚ) :
    0 ≤ jsRound ((m - ((⌊m / METERS_PER_KARAM + 1 / 1000⌋ : ℤ) : ℚ) * METERS_PER_KARAM)
      / METERS_PER_FOOT * 10) := by
  have eK : METERS_PER_KARAM = 4191 / 2500 := by
    norm_num [METERS_PER_KARAM, KARAM_TO_FEET, METERS_PER_FOOT]
  have eF : METERS_PER_FOOT = 381 / 1250 := by norm_num [METERS_PER_FOOT]
  set k : ℤ := ⌊m / METERS_PER_KARAM + 1 / 1000⌋ with hkdef
  have hfl : (k : ℚ) ≤ m / METERS_PER_KARAM + 1 / 1000 := by
    rw [hkdef]; exact Int.floor_le _
  have hKne : METERS_PER_KARAM ≠ 0 := by rw [eK]; norm_num
  have h3 := mul_le_mul_of_nonneg_right hfl
    (show (0 : ℚ) ≤ METERS_PER_KARAM by rw [eK]; norm_num)
  rw [add_mul, div_mul_cancel₀ m hKne] at h3
  rw [eK] at h3
  norm_num at h3
  have hrem : -(4191 / 2500000) ≤ m - (k : ℚ) * METERS_PER_KARAM := by
    rw [eK]; linarith
  have hX : (m - (k : ℚ) * METERS_PER_KARAM) / METERS_PER_FOOT * 10
      = (m - (k : ℚ) * METERS_PER_KARAM) * (12500 / 381) := by
    rw [eF]; field_simp; ring
  have h4 := mul_le_mul_of_nonneg_right hrem (show (0 : ℚ) ≤ 12500 / 381 by norm_num)
  norm_num at h4
  rw [jsRound, hX]
  exact Int.le_floor.mpr (by push_cast; linarith)

/-- C7: `formatKaramFeet` agrees with the spec's `formatLengthLabel`
branching on every nonnegative length, and on 50 meters it yields
`karamCount = 29`, residual 4.5 feet, and the label `"29k - 4.5ft"`. -/
theorem formatKaramFeet_matches_spec :
    (∀ m : ℚ, 0 ≤ m → formatKaramFeet m = formatLengthLabel_spec m) ∧
    ⌊(50 : ℚ) / METERS_PER_KARAM + 1 / 1000⌋ = 29 ∧
    round1 ((50 - ((29 : ℤ) : ℚ) * METERS_PER_KARAM) / METERS_PER_FOOT) = 9 / 2 ∧
    formatKaramFeet 50 = "29k - 4.5ft" := by
  have hfloor : ⌊(50 : ℚ) / METERS_PER_KARAM + 1 / 1000⌋ = 29 := by
    norm_num [METERS_PER_KARAM, KARAM_TO_FEET, METERS_PER_FOOT]
  have hround : round1 ((50 - ((29 : ℤ) : ℚ) * METERS_PER_KARAM) / METERS_PER_FOOT)
      = 9 / 2 := by
    norm_num [round1, jsRound, METERS_PER_KARAM, KARAM_TO_FEET, METERS_PER_FOOT]
  refine ⟨?_, hfloor, hround, ?_⟩
  · intro m hm
    have hk0 : 0 ≤ ⌊m / METERS_PER_KARAM + 1 / 1000⌋ := karams_nonneg m hm
    have hn0 := roundedFeet_num_nonneg m
    simp only [formatKaramFeet, formatLengthLabel_spec]
    set k : ℤ := ⌊m / METERS_PER_KARAM + 1 / 1000⌋ with hkdef
    set n : ℤ := jsRound ((m - (k : ℚ) * METERS_PER_KARAM) / METERS_PER_FOOT * 10)
      with hndef
    have hrdf : round1 ((m - (k : ℚ) * METERS_PER_KARAM) / METERS_PER_FOOT)
        = (n : ℚ) / 10 := by
      rw [round1, hndef]
    rw [hrdf]
    rcases eq_or_lt_of_le hk0 with hkz | hkpos
    · rw [if_neg (show ¬k > 0 by rw [← hkz]; exact lt_irrefl 0), if_pos hkz.symm]
    · rw [if_pos hkpos, if_neg (ne_of_gt hkpos)]
      rcases eq_or_lt_of_le hn0 with hnz | hnpos
      · have h0 : ((n : ℚ) / 10 : ℚ) = 0 := by rw [← hnz]; norm_num
        rw [h0, if_neg (by norm_num), if_pos rfl]
      · have hcast : (1 : ℚ) ≤ (n : ℚ) := by exact_mod_cast hnpos
        have h1 : ((n : ℚ) / 10 : ℚ) ≥ 1 / 10 := by linarith
        have h2 : ((n : ℚ) / 10 : ℚ) ≠ 0 :=
          ne_of_gt (div_pos (by linarith) (by norm_num))
        rw [if_pos h1, if_neg h2]
  · simp only [formatKaramFeet]
    rw [hfloor, hround]
    rw [if_pos (by norm_num), if_pos (by norm_num)]
    have ht : toFixed1 ((9 : ℚ) / 2) = "4.5" := by
      have h1 : jsRound ((9 : ℚ) / 2 * 10) = 45 := by norm_num [jsRound]
      rw [toFixed1, h1]
      rfl
    rw [ht]
    rfl

/-- C7 witness: the branch equivalence applied at 50 meters. -/
theorem formatKaramFeet_matches_spec_witness :
    (0 : ℚ) ≤ 50 ∧ formatKaramFeet 50 = formatLengthLabel_spec 50 :=
  ⟨by norm_num, formatKaramFeet_matches_spec.1 50 (by norm_num)⟩

/-! ## Label placement engine (Map.tsx, CollisionManagedMarkers) -/

/-- Axis-aligned screen rectangle `{x1, y1, x2, y2}`. -/
structure Box where
  x1 : ℚ
  y1 : ℚ
  x2 : ℚ
  y2 : ℚ
deriving DecidableEq

/-- The strict-separation disjunction of the spec's PlacementResult
invariant; it is exactly the negation of the per-target test inside
`isOverlapping`. -/
def SeparatedBoxes (box target : Box) : Prop :=
  box.x2 < target.x1 ∨ box.x1 > target.x2 ∨ box.y2 < target.y1 ∨ box.y1 > target.y2

instance (box target : Box) : Decidable (SeparatedBoxes box target) := by
  unfold SeparatedBoxes
  infer_instance

/-- `isOverlapping(box)`: some already-recorded rectangle fails the
strict-separation test. -/
def isOverlapping (collisionBuffers : List Box) (box : Box) : Prop :=
  ∃ target ∈ collisionBuffers, ¬SeparatedBoxes box target

instance (collisionBuffers : List Box) (box : Box) :
    Decidable (isOverlapping collisionBuffers box) := by
  unfold isOverlapping
  infer_instance

/-- `getCollisionBox(point, width, height, padding)`. -/
def getCollisionBox (point : Point) (width height padding : ℚ) : Box :=
  ⟨point.1 - width / 2 - padding, point.2 - height / 2 - padding,
   point.1 + width / 2 + padding, point.2 + height / 2 + padding⟩

/-- The 13 predefined offsets of `findFreePosition`, in source order. -/
def offsets : List Point :=
  [(0, 0), (0, -25), (0, 25), (-50, 0), (50, 0), (-50, -25), (50, -25),
   (-50, 25), (50, 25), (0, -50), (0, 50), (-80, 0), (80, 0)]

/-- The offset-scanning loop of `findFreePosition`: the first offset
whose padded box does not overlap any recorded rectangle wins. -/
def tryOffsets (collisionBuffers : List Box) (anchor : Point) (width height : ℚ) :
    List Point → Option (Point × Box)
  | [] => none
  | off :: rest =>
    let testPos : Point := (anchor.1 + off.1, anchor.2 + off.2)
    let box := getCollisionBox testPos width height 2
    if isOverlapping collisionBuffers box then
      tryOffsets collisionBuffers anchor width height rest
    else
      some (testPos, box)

/-- Result of placing one candidate: position, padded box, and whether
the random-jitter fallback was taken. -/
structure FreePosition where
  pos : Point
  box : Box
  usedFallback : Bool
deriving DecidableEq

/-- `findFreePosition(anchor, width, height)`: scan the 13 offsets, and
if all fail take the bounded random jitter
`anchor + (random - 0.5) * 80` unconditionally.  The two `Math.random`
values of the fallback enter as the parameter `rnd`. -/
def findFreePosition (collisionBuffers : List Box) (anchor : Point)
    (width height : ℚ) (rnd : ℚ × ℚ) : FreePosition :=
  match tryOffsets collisionBuffers anchor width height offsets with
  | some pb => ⟨pb.1, pb.2, false⟩
  | none =>
    let finalPos : Point :=
      (anchor.1 + (rnd.1 - 1 / 2) * 80, anchor.2 + (rnd.2 - 1 / 2) * 80)
    ⟨finalPos, getCollisionBox finalPos width height 2, true⟩

/-- One pending label of `CollisionManagedMarkers`: id, class
(`main` = Primary area label, otherwise a Secondary dimension label),
anchor, text. -/
structure Candidate where
  id : String
  isMain : Bool
  center : Point
  text : String
deriving DecidableEq

/-- Label footprint width:
`text.length * (isMain ? 7.5 : 6) + (isMain ? 12 : 8)`. -/
def labelWidth (c : Candidate) : ℚ :=
  (c.text.length : ℚ) * (if c.isMain then 15 / 2 else 6) +
    (if c.isMain then 12 else 8)

/-- Label footprint height: `isMain ? 26 : 18`. -/
def labelHeight (c : Candidate) : ℚ := if c.isMain then 26 else 18

/-- One produced marker of the pass. -/
structure Placement where
  candidateId : String
  pos : Point
  box : Box
  usedFallback : Bool
deriving DecidableEq

/-- The `allPending.forEach` loop of `CollisionManagedMarkers`: each
candidate is anchored through the screen transform, placed by
`findFreePosition` against the rectangles recorded so far, and its box
is pushed onto `collisionBuffers` unconditionally.  `rnd` supplies the
jitter pair for each fallback; the result is the marker list and the
final buffer list. -/
def runPlacement (toScreen : Point → Point) (rnd : ℕ → ℚ × ℚ) :
    List Candidate → List Box → List Placement × List Box
  | [], collisionBuffers => ([], collisionBuffers)
  | c :: rest, collisionBuffers =>
    let anchor := toScreen c.center
    let r := findFreePosition collisionBuffers anchor (labelWidth c) (labelHeight c)
      (rnd collisionBuffers.length)
    let next := runPlacement toScreen rnd rest (collisionBuffers ++ [r.box])
    (⟨c.id, r.pos, r.box, r.usedFallback⟩ :: next.1, next.2)

/-- Not overlapping means strictly separated from every recorded
rectangle. -/
theorem not_isOverlapping_iff (collisionBuffers : List Box) (box : Box) :
    ¬isOverlapping collisionBuffers box ↔
      ∀ target ∈ collisionBuffers, SeparatedBoxes box target := by
  simp [isOverlapping]

/-- A box returned by the offset scan passed the overlap test. -/
theorem tryOffsets_free (collisionBuffers : List Box) (anchor : Point)
    (width height : ℚ) :
    ∀ (offs : List Point) (pb : Point × Box),
      tryOffsets collisionBuffers anchor width height offs = some pb →
      ¬isOverlapping collisionBuffers pb.2 := by
  intro offs
  induction offs with
  | nil => intro pb hpb; simp [tryOffsets] at hpb
  | cons off rest ih =>
    intro pb hpb
    simp only [tryOffsets] at hpb
    by_cases hov : isOverlapping collisionBuffers
        (getCollisionBox (anchor.1 + off.1, anchor.2 + off.2) width height 2)
    · rw [if_pos hov] at hpb
      exact ih pb hpb
    · rw [if_neg hov] at hpb
      cases hpb
      exact hov

/-- A non-fallback placement is strictly separated from every
rectangle recorded before it. -/
theorem findFreePosition_sep (collisionBuffers : List Box) (anchor : Point)
    (width height : ℚ) (rnd : ℚ × ℚ)
    (hnf : (findFreePosition collisionBuffers anchor width height rnd).usedFallback
      = false) :
    ∀ target ∈ collisionBuffers,
      SeparatedBoxes
        (findFreePosition collisionBuffers anchor width height rnd).box target := by
  unfold findFreePosition at hnf ⊢
  cases hto : tryOffsets collisionBuffers anchor width height offsets with
  | none =>
    rw [hto] at hnf
    simp at hnf
  | some pb =>
    exact (not_isOverlapping_iff collisionBuffers pb.2).mp
      (tryOffsets_free collisionBuffers anchor width height offsets pb hto)

/-- Pass invariant of `runPlacement`: the final buffer list is the
initial one plus one recorded box per produced marker, in order, and
every non-fallback marker is strictly separated from all initial
rectangles and from the box of every earlier marker. -/
theorem runPlacement_spec (toScreen : Point → Point) (rnd : ℕ → ℚ × ℚ) :
    ∀ (cands : List Candidate) (buffers : List Box),
      (runPlacement toScreen rnd cands buffers).2 =
        buffers ++ (runPlacement toScreen rnd cands buffers).1.map Placement.box ∧
      (runPlacement toScreen rnd cands buffers).1.length = cands.length ∧
      (∀ (k : ℕ) (hk : k < (runPlacement toScreen rnd cands buffers).1.length),
        ((runPlacement toScreen rnd cands buffers).1.get ⟨k, hk⟩).usedFallback = false →
        (∀ target ∈ buffers,
          SeparatedBoxes
            ((runPlacement toScreen rnd cands buffers).1.get ⟨k, hk⟩).box target) ∧
        ∀ (i : ℕ) (hi : i < (runPlacement toScreen rnd cands buffers).1.length),
          i < k →
          SeparatedBoxes ((runPlacement toScreen rnd cands buffers).1.get ⟨k, hk⟩).box
            ((runPlacement toScreen rnd cands buffers).1.get ⟨i, hi⟩).box) := by
  intro cands
  induction cands with
  | nil =>
    intro buffers
    refine ⟨by simp [runPlacement], by simp [runPlacement], ?_⟩
    intro k hk
    simp [runPlacement] at hk
  | cons c rest ih =>
    intro buffers
    simp only [runPlacement]
    obtain ⟨ih1, ih2, ih3⟩ := ih (buffers ++
      [(findFreePosition buffers (toScreen c.center) (labelWidth c) (labelHeight c)
        (rnd buffers.length)).box])
    refine ⟨?_, ?_, ?_⟩
    · rw [ih1]
      simp [List.append_assoc]
    · simp [ih2]
    · intro k hk hfall
      cases k with
      | zero =>
        refine ⟨?_, ?_⟩
        · intro target htarget
          exact findFreePosition_sep buffers (toScreen c.center) (labelWidth c)
            (labelHeight c) (rnd buffers.length) hfall target htarget
        · intro i hi hik
          exact absurd hik (Nat.not_lt_zero i)
      | succ k =>
        have hk2 : k < ((runPlacement toScreen rnd rest (buffers ++
            [(findFreePosition buffers (toScreen c.center) (labelWidth c)
              (labelHeight c) (rnd buffers.length)).box])).1).length := by
          simpa using hk
        obtain ⟨h3a, h3b⟩ := ih3 k hk2 hfall
        refine ⟨?_, ?_⟩
        · intro target htarget
          exact h3a target (List.mem_append_left _ htarget)
        · intro i hi hik
          cases i with
          | zero =>
            exact h3a _ (List.mem_append_right _ (List.mem_singleton_self _))
          | succ i =>
            exact h3b i (by simpa using hi) (Nat.lt_of_succ_lt_succ hik)

/-- Strict separation is symmetric. -/
theorem separatedBoxes_symm {b t : Box} (h : SeparatedBoxes b t) :
    SeparatedBoxes t b := by
  unfold SeparatedBoxes at h ⊢
  rcases h with h | h | h | h
  · exact Or.inr (Or.inl h)
  · exact Or.inl h
  · exact Or.inr (Or.inr (Or.inr h))
  · exact Or.inr (Or.inr (Or.inl h))

/-- C4: in any completed pass, the boxes of any two distinct
non-fallback placements satisfy the spec's strict-separation
disjunction along the x- or y-axis. -/
theorem accepted_boxes_pairwise_disjoint (toScreen : Point → Point)
    (rnd : ℕ → ℚ × ℚ) (cands : List Candidate) (i k : ℕ)
    (hi : i < (runPlacement toScreen rnd cands []).1.length)
    (hk : k < (runPlacement toScreen rnd cands []).1.length)
    (hik : i ≠ k)
    (hfi : ((runPlacement toScreen rnd cands []).1.get ⟨i, hi⟩).usedFallback = false)
    (hfk : ((runPlacement toScreen rnd cands []).1.get ⟨k, hk⟩).usedFallback = false) :
    SeparatedBoxes ((runPlacement toScreen rnd cands []).1.get ⟨k, hk⟩).box
      ((runPlacement toScreen rnd cands []).1.get ⟨i, hi⟩).box := by
  rcases Nat.lt_or_ge i k with hlt | hge
  · exact ((runPlacement_spec toScreen rnd cands []).2.2 k hk hfk).2 i hi hlt
  · have hlt2 : k < i := Nat.lt_of_le_of_ne hge (Ne.symm hik)
    exact separatedBoxes_symm
      (((runPlacement_spec toScreen rnd cands []).2.2 i hi hfi).2 k hk hlt2)

/-- C10: the pass records exactly one box per candidate (the final
buffer list is the per-candidate box list in order, fallback boxes
included), and every later non-fallback placement is strictly
separated from the box of every earlier placement, fallback or not. -/
theorem placement_records_all_boxes (toScreen : Point → Point)
    (rnd : ℕ → ℚ × ℚ) (cands : List Candidate) :
    (runPlacement toScreen rnd cands []).1.length = cands.length ∧
    (runPlacement toScreen rnd cands []).2 =
      (runPlacement toScreen rnd cands []).1.map Placement.box ∧
    ∀ (i k : ℕ) (hi : i < (runPlacement toScreen rnd cands []).1.length)
      (hk : k < (runPlacement toScreen rnd cands []).1.length), i < k →
      ((runPlacement toScreen rnd cands []).1.get ⟨k, hk⟩).usedFallback = false →
      SeparatedBoxes ((runPlacement toScreen rnd cands []).1.get ⟨k, hk⟩).box
        ((runPlacement toScreen rnd cands []).1.get ⟨i, hi⟩).box := by
  obtain ⟨h1, h2, h3⟩ := runPlacement_spec toScreen rnd cands []
  refine ⟨h2, by simpa using h1, ?_⟩
  intro i k hi hk hik hfk
  exact (h3 k hk hfk).2 i hi hik

/-! ## A concrete two-candidate pass (witness data) -/

/-- Demo Primary candidate anchored at the origin. -/
def c1 : Candidate := ⟨"main-0", true, (0, 0), "A"⟩

/-- Demo Primary candidate anchored far away at (500, 500). -/
def c2 : Candidate := ⟨"main-1", true, (500, 500), "B"⟩

/-- Demo candidate list. -/
def demoCands : List Candidate := [c1, c2]

/-- Deterministic stand-in for the jitter randomness. -/
def demoRnd : ℕ → ℚ × ℚ := fun _ => (0, 0)

/-- Padded collision box of the first demo candidate. -/
def box1 : Box := ⟨-47/4, -15, 47/4, 15⟩

/-- Padded collision box of the second demo candidate. -/
def box2 : Box := ⟨1953/4, 485, 2047/4, 515⟩

/-- When the centered box is free, `findFreePosition` accepts the very
first offset (0, 0) and reports no fallback. -/
theorem findFreePosition_center (buffers : List Box) (anchor : Point) (w h : ℚ)
    (rnd : ℚ × ℚ)
    (hfree : ¬isOverlapping buffers (getCollisionBox anchor w h 2)) :
    findFreePosition buffers anchor w h rnd
      = ⟨anchor, getCollisionBox anchor w h 2, false⟩ := by
  have hpt : (anchor.1 + 0, anchor.2 + 0) = anchor := by simp
  have hto : tryOffsets buffers anchor w h offsets
      = some (anchor, getCollisionBox anchor w h 2) := by
    simp only [offsets, tryOffsets, hpt]
    rw [if_neg hfree]
  unfold findFreePosition
  rw [hto]

/-- Footprint width of the first demo candidate. -/
theorem demo_width_c1 : labelWidth c1 = 39 / 2 := by
  have h : ("A".length : ℕ) = 1 := rfl
  simp [labelWidth, c1, h]
  norm_num

/-- Footprint width of the second demo candidate. -/
theorem demo_width_c2 : labelWidth c2 = 39 / 2 := by
  have h : ("B".length : ℕ) = 1 := rfl
  simp [labelWidth, c2, h]
  norm_num

/-- Collision box of the first demo candidate at its anchor. -/
theorem demo_box_c1 : getCollisionBox c1.center (39 / 2) (labelHeight c1) 2 = box1 := by
  simp [getCollisionBox, c1, labelHeight, box1]
  norm_num

/-- Collision box of the second demo candidate at its anchor. -/
theorem demo_box_c2 : getCollisionBox c2.center (39 / 2) (labelHeight c2) 2 = box2 := by
  simp [getCollisionBox, c2, labelHeight, box2]
  norm_num

/-- Full evaluation of the demo pass: both candidates are placed at
their anchors without fallback and both boxes are recorded. -/
theorem demoRun_eq :
    runPlacement id demoRnd demoCands [] =
      ([⟨"main-0", (0, 0), box1, false⟩, ⟨"main-1", (500, 500), box2, false⟩],
       [box1, box2]) := by
  have hfree1 : ¬isOverlapping []
      (getCollisionBox c1.center (labelWidth c1) (labelHeight c1) 2) := by
    simp [isOverlapping]
  have hfree2 : ¬isOverlapping [box1]
      (getCollisionBox c2.center (labelWidth c2) (labelHeight c2) 2) := by
    rw [demo_width_c2, demo_box_c2]
    simp [isOverlapping, SeparatedBoxes, box1, box2]
    norm_num
  simp only [demoCands, runPlacement, id_eq, List.length_nil, demoRnd, List.nil_append]
  rw [findFreePosition_center _ _ _ _ _ hfree1]
  simp only []
  rw [demo_width_c1, demo_box_c1, findFreePosition_center _ _ _ _ _ hfree2]
  simp only []
  rw [demo_width_c2, demo_box_c2]
  simp [c1, c2]

/-- C4 witness: the pairwise-disjointness theorem applied to the two
non-fallback placements of the demo pass. -/
theorem accepted_boxes_pairwise_disjoint_witness : SeparatedBoxes box2 box1 := by
  have hl : (runPlacement id demoRnd demoCands []).1
      = [⟨"main-0", (0, 0), box1, false⟩, ⟨"main-1", (500, 500), box2, false⟩] := by
    rw [demoRun_eq]
  have h0 : 0 < (runPlacement id demoRnd demoCands []).1.length := by
    rw [hl]; norm_num
  have h1 : 1 < (runPlacement id demoRnd demoCands []).1.length := by
    rw [hl]; norm_num
  have hf0 : ((runPlacement id demoRnd demoCands []).1.get ⟨0, h0⟩).usedFallback
      = false := by
    rw [List.get_of_eq hl]; rfl
  have hf1 : ((runPlacement id demoRnd demoCands []).1.get ⟨1, h1⟩).usedFallback
      = false := by
    rw [List.get_of_eq hl]; rfl
  have main := accepted_boxes_pairwise_disjoint id demoRnd demoCands 0 1 h0 h1
    (by norm_num) hf0 hf1
  rw [List.get_of_eq hl, List.get_of_eq hl] at main
  exact main

/-- C10 witness: the recording theorem applied to the demo pass. -/
theorem placement_records_all_boxes_witness :
    (runPlacement id demoRnd demoCands []).1.length = demoCands.length ∧
    SeparatedBoxes box2 box1 := by
  obtain ⟨hlen, hbufs, hsep⟩ := placement_records_all_boxes id demoRnd demoCands
  refine ⟨hlen, ?_⟩
  have hl : (runPlacement id demoRnd demoCands []).1
      = [⟨"main-0", (0, 0), box1, false⟩, ⟨"main-1", (500, 500), box2, false⟩] := by
    rw [demoRun_eq]
  have h0 : 0 < (runPlacement id demoRnd demoCands []).1.length := by
    rw [hl]; norm_num
  have h1 : 1 < (runPlacement id demoRnd demoCands []).1.length := by
    rw [hl]; norm_num
  have hf1 : ((runPlacement id demoRnd demoCands []).1.get ⟨1, h1⟩).usedFallback
      = false := by
    rw [List.get_of_eq hl]; rfl
  have main := hsep 0 1 h0 h1 (by norm_num) hf1
  rw [List.get_of_eq hl, List.get_of_eq hl] at main
  exact main

/-! ## Candidate ordering (Map.tsx line 140) -/

/-- Class tag of a pending label: `main` area label or dimension
label. -/
inductive LabelKind
  | mainLabel
  | dimLabel
deriving DecidableEq

/-- One entry of `allPending` before sorting. -/
structure PendingLabel where
  id : String
  kind : LabelKind
  center : Point
  text : String
deriving DecidableEq

/-- The comparator passed to `allPending.sort`:
`(a, b) => (a.type === 'main' ? -1 : 1)`. -/
def pendingCompare (a b : PendingLabel) : ℤ :=
  if a.kind = LabelKind.mainLabel then -1 else 1

/-- C5 evidence: on two distinct Primary (main) candidates the
comparator claims each strictly precedes the other, so it is not a
consistent comparator; ECMAScript then leaves the sort order
implementation-defined, and no within-class order preservation is
guaranteed (V8's sort reverses this two-element main-label run). -/
theorem pendingCompare_inconsistent :
    (⟨"main-a", LabelKind.mainLabel, (0, 0), "A"⟩ : PendingLabel)
        ≠ ⟨"main-b", LabelKind.mainLabel, (0, 0), "B"⟩ ∧
    pendingCompare ⟨"main-a", LabelKind.mainLabel, (0, 0), "A"⟩
      ⟨"main-b", LabelKind.mainLabel, (0, 0), "B"⟩ < 0 ∧
    pendingCompare ⟨"main-b", LabelKind.mainLabel, (0, 0), "B"⟩
      ⟨"main-a", LabelKind.mainLabel, (0, 0), "A"⟩ < 0 := by
  refine ⟨?_, ?_, ?_⟩
  · intro h
    have := congrArg PendingLabel.id h
    simp at this
  · rw [pendingCompare, if_pos rfl]; norm_num
  · rw [pendingCompare, if_pos rfl]; norm_num
